import Mathlib

/-!
Verification of the fleet execution engine in `tasks.py`
(host targeting, platform dispatch, parallel per-host execution,
and the reboot readiness polling loop).

Python strings are modelled as Lean `String`, with the Python string
primitives used by the code (`in`, `split`, `replace`) embedded as
executable Lean functions on the underlying character lists.
-/

namespace Infra

/-- Embedding of Python's substring test `pat in hay` on character lists:
true iff `pat` occurs contiguously in the list. -/
def containsSeq (pat : List Char) : List Char → Bool
  | [] => pat.isEmpty
  | c :: cs => pat.isPrefixOf (c :: cs) || containsSeq pat cs

/-- Embedding of Python's `needle in hay` for strings. -/
def pyContains (needle hay : String) : Bool :=
  containsSeq needle.toList hay.toList

/-- Helper for `pySplit`: split a character list on a separator character,
Python `str.split(sep)` semantics for a one-character separator
(the empty input yields one empty token). -/
def splitCharAux (sep : Char) : List Char → List (List Char)
  | [] => [[]]
  | c :: cs =>
    match splitCharAux sep cs with
    | [] => [[]]
    | g :: gs => if c = sep then [] :: g :: gs else (c :: g) :: gs

/-- Embedding of Python's `s.split(sep)` for a one-character separator,
as used by `get_hosts` with `sep = ','`. -/
def pySplit (s : String) (sep : Char) : List String :=
  (splitCharAux sep s.toList).map String.mk

/-- Embedding of Python's `str.replace(pat, rep)` on character lists:
replace every non-overlapping occurrence of `pat`, scanning left to
right.  The recursion is driven by a fuel argument (any fuel at least
the length of the list gives the replace semantics; `pat` is always
non-empty at the single call site). -/
def replaceAllFuel (pat rep : List Char) : Nat → List Char → List Char
  | _, [] => []
  | 0, l => l
  | fuel + 1, c :: cs =>
    if pat.isPrefixOf (c :: cs) then
      rep ++ replaceAllFuel pat rep fuel (List.drop (pat.length - 1) cs)
    else
      c :: replaceAllFuel pat rep fuel cs

/-- Embedding of Python's `s.replace(pat, rep)` (non-empty `pat`). -/
def pyReplace (s pat rep : String) : String :=
  String.mk (replaceAllFuel pat.toList rep.toList s.toList.length s.toList)

/-- Modelled from the spec: `DeployHost` comes from the external deploykit
library (absent from the repository).  Per the spec's HostDescriptor it
carries an address, an optional login identity (`none` = the library
default) and an optional SSH port (`none` = the library default 22). -/
structure DeployHost where
  host : String
  user : Option String := none
  port : Option Nat := none
deriving DecidableEq, Repr

/-- Embedding of Python's f-string formatting of the `user` attribute
(`f"{h.user}"`); an unset (`None`) user formats as the literal `"None"`.
Every call site in the code has the user set, so the default-branch
value never matters to the theorems below. -/
def pyFormatUser : Option String → String
  | some u => u
  | none => "None"

/-- Embedding of `get_hosts` from `tasks.py`.  The external inventory
query (`nix flake show --json`, read only for the keys of its
`nixosConfigurations` mapping) is passed in as the `inventory`
parameter; everything else mirrors the Python control flow:
an empty spec maps every declared name to `name ++ ".nix-community.org"`
with no user override; a spec containing `"darwin"` either is exactly
`"darwin01"` (one host with user `"customer"`) or maps every
comma-separated token with user `"hetzner"`; any other spec maps every
token with no user override. -/
def get_hosts (inventory : List String) (hosts : String) : List DeployHost :=
  if hosts = "" then
    inventory.map (fun n => { host := n ++ ".nix-community.org" })
  else if pyContains "darwin" hosts then
    if hosts = "darwin01" then
      [{ host := "darwin01.nix-community.org", user := some "customer" }]
    else
      (pySplit hosts ',').map
        (fun h => { host := h ++ ".nix-community.org", user := some "hetzner" })
  else
    (pySplit hosts ',').map (fun h => { host := h ++ ".nix-community.org" })

/-- The shell-level pieces assembled by the per-host `deploy` closure in
`deploy_nixos`: the rebuild command, the ssh target of the artifact
transfer, the derived flake attribute name, and the final remote switch
invocation. -/
structure DeployCmd where
  command : String
  target : String
  hostname : String
  archiveTo : String
  switch : String
deriving DecidableEq, Repr

/-- Embedding of the per-host `deploy` closure inside `deploy_nixos`
(`tasks.py` lines 22-41).  `path` is the store path parsed from the
external `nix flake archive --json` response. -/
def deploy (h : DeployHost) (path : String) : DeployCmd :=
  let command := if pyContains "darwin" h.host then "darwin-rebuild" else "sudo nixos-rebuild"
  let target :=
    if pyContains "darwin" h.host then pyFormatUser h.user ++ "@" ++ h.host else h.host
  let hostname := pyReplace h.host ".nix-community.org" ""
  { command := command
    target := target
    hostname := hostname
    archiveTo := "ssh://" ++ target
    switch := command ++ " switch --option accept-flake-config true --flake "
        ++ path ++ "#" ++ hostname }

/-- Result of one host's unit of work (an uncaught Python exception is
reified as `failure`). -/
inductive Outcome where
  | success
  | failure (reason : String)
deriving DecidableEq, Repr

/-- Whether an outcome is a failure. -/
def Outcome.isFail : Outcome → Bool
  | .success => false
  | .failure _ => true

/-- One per-host result produced by the parallel executor. -/
structure HostResult where
  host : DeployHost
  outcome : Outcome
deriving DecidableEq, Repr

/-- Modelled from the spec: `DeployGroup.run_function` is provided by the
external deploykit library, absent from the repository.  Per the spec
(ParallelExecutor, section 4.2) it runs the unit once for every host of
the group, isolating failures per host, so each host yields exactly one
outcome; concurrency is modelled by the unit being a pure per-host
function with no shared state. -/
def run_function (hosts : List DeployHost) (unit : DeployHost → Outcome) : List HostResult :=
  hosts.map (fun h => { host := h, outcome := unit h })

end Infra

namespace Infra

/-! Helper lemmas about the string primitives. -/

/-- Characterisation of `containsSeq`: it decides contiguous (infix)
occurrence. -/
lemma containsSeq_iff (pat : List Char) (l : List Char) :
    containsSeq pat l = true ↔ pat <:+: l := by
  induction l with
  | nil =>
    simp [containsSeq, List.isEmpty_iff, List.infix_nil]
  | cons c cs ih =>
    simp [containsSeq, Bool.or_eq_true, List.isPrefixOf_iff_prefix, ih,
      List.infix_cons_iff]

lemma replaceAllFuel_nil (pat rep : List Char) (fuel : Nat) :
    replaceAllFuel pat rep fuel [] = [] := by
  cases fuel <;> rfl

/-- A proper prefix (leaving at least one element over) is an infix of
`dropLast`. -/
lemma infix_dropLast_of_prefix {l₁ l₂ : List Char} (h : l₁ <+: l₂)
    (hl : l₁.length + 1 ≤ l₂.length) : l₁ <:+: l₂.dropLast := by
  have h1 : l₁ = l₂.take l₁.length := List.prefix_iff_eq_take.mp h
  have h2 : l₁ <+: l₂.dropLast := by
    rw [List.prefix_iff_eq_take, List.dropLast_eq_take, List.take_take]
    have hmin : min l₁.length (l₂.length - 1) = l₁.length := by omega
    rw [hmin]
    exact h1
  exact h2.isInfix

/-- Replacing a non-empty pattern by nothing in `n ++ pat` recovers `n`,
provided the only occurrence of the pattern is the final one (no
occurrence fits inside `dropLast`). -/
lemma replaceAllFuel_strip (pat : List Char) (hp : pat ≠ []) :
    ∀ (n : List Char) (fuel : Nat), (n ++ pat).length ≤ fuel →
      ¬ pat <:+: (n ++ pat).dropLast →
      replaceAllFuel pat [] fuel (n ++ pat) = n := by
  intro n
  induction n with
  | nil =>
    intro fuel hfuel _
    obtain ⟨p, pt, rfl⟩ : ∃ p pt, pat = p :: pt := by
      cases pat with
      | nil => exact absurd rfl hp
      | cons p pt => exact ⟨p, pt, rfl⟩
    simp only [List.nil_append] at hfuel ⊢
    cases fuel with
    | zero => simp at hfuel
    | succ f =>
      show (if (p :: pt).isPrefixOf (p :: pt) then
          [] ++ replaceAllFuel (p :: pt) [] f (List.drop ((p :: pt).length - 1) pt)
        else p :: replaceAllFuel (p :: pt) [] f pt) = []
      rw [if_pos (by simp [List.isPrefixOf_iff_prefix])]
      simp [replaceAllFuel_nil]
  | cons c n' ih =>
    intro fuel hfuel hinf
    have hne : n' ++ pat ≠ [] := by
      intro hcontra
      exact hp (List.append_eq_nil.mp hcontra).2
    cases fuel with
    | zero =>
      simp at hfuel
    | succ f =>
      have hnotpre : ¬ pat.isPrefixOf (c :: (n' ++ pat)) = true := by
        intro hpre
        rw [List.isPrefixOf_iff_prefix] at hpre
        have hlen : pat.length + 1 ≤ (c :: (n' ++ pat)).length := by
          simp [List.length_append]
        have := infix_dropLast_of_prefix hpre hlen
        simp only [List.cons_append] at hinf
        exact hinf this
      show (if pat.isPrefixOf (c :: (n' ++ pat)) then
          [] ++ replaceAllFuel pat [] f (List.drop (pat.length - 1) (n' ++ pat))
        else c :: replaceAllFuel pat [] f (n' ++ pat)) = c :: n'
      rw [if_neg hnotpre]
      have hrec : replaceAllFuel pat [] f (n' ++ pat) = n' := by
        apply ih f
        · simp at hfuel ⊢
          omega
        · intro hbad
          apply hinf
          simp only [List.cons_append]
          rw [List.dropLast_cons_of_ne_nil hne]
          exact List.infix_cons hbad
      rw [hrec]

/-- Characters of a concatenation of strings. -/
lemma toList_append (s t : String) : (s ++ t).toList = s.toList ++ t.toList := by
  simp [String.toList]

lemma mk_toList (s : String) : String.mk s.toList = s := rfl

/-- Stripping the domain suffix with Python's `replace`: when the host
address is `n ++ ".nix-community.org"` and the suffix occurs nowhere
else in the address, the replace removes exactly the suffix. -/
lemma pyReplace_strip (n : String)
    (hclean : containsSeq ".nix-community.org".toList
        ((n ++ ".nix-community.org").toList.dropLast) = false) :
    pyReplace (n ++ ".nix-community.org") ".nix-community.org" "" = n := by
  have hTL : (n ++ ".nix-community.org").toList = n.toList ++ ".nix-community.org".toList :=
    toList_append _ _
  have hinf : ¬ ".nix-community.org".toList <:+:
      (n.toList ++ ".nix-community.org".toList).dropLast := by
    rw [← containsSeq_iff, ← hTL]
    simp only [hclean]
    simp
  unfold pyReplace
  rw [hTL]
  show String.mk (replaceAllFuel ".nix-community.org".toList []
      (n.toList ++ ".nix-community.org".toList).length
      (n.toList ++ ".nix-community.org".toList)) = n
  rw [replaceAllFuel_strip ".nix-community.org".toList (by decide) n.toList _ (Nat.le_refl _) hinf]
  exact mk_toList n

/-! Claim C7: token count and addresses of an explicit host spec. -/

/-- C7: for every non-empty comma-separated host spec, `get_hosts` returns
one descriptor per comma-separated token, and each descriptor's address
is its token with the fixed domain suffix ".nix-community.org" appended. -/
theorem get_hosts_token_map (inventory : List String) (spec : String) (hne : spec ≠ "") :
    (get_hosts inventory spec).length = (pySplit spec ',').length ∧
    (get_hosts inventory spec).map DeployHost.host =
      (pySplit spec ',').map (fun t => t ++ ".nix-community.org") := by
  unfold get_hosts
  rw [if_neg hne]
  by_cases hd : pyContains "darwin" spec = true
  · rw [if_pos hd]
    by_cases h01 : spec = "darwin01"
    · subst h01
      rw [if_pos rfl]
      refine ⟨by decide, by decide⟩
    · rw [if_neg h01]
      refine ⟨by simp, ?_⟩
      simp [List.map_map, Function.comp]
  · rw [if_neg hd]
    refine ⟨by simp, ?_⟩
    simp [List.map_map, Function.comp]

/-- Witness for C7 at the concrete spec "build01,build02". -/
theorem get_hosts_token_map_witness :
    ("build01,build02" : String) ≠ "" ∧
    (get_hosts [] "build01,build02").length = (pySplit "build01,build02" ',').length ∧
    (get_hosts [] "build01,build02").map DeployHost.host =
      (pySplit "build01,build02" ',').map (fun t => t ++ ".nix-community.org") :=
  ⟨by decide, get_hosts_token_map [] "build01,build02" (by decide)⟩

/-! Claim C8 (corrected): the "darwin01 → customer" special case is keyed
on the whole spec string, not on the token. -/

/-- C8 counterexample: in the multi-token spec "darwin01,darwin02" the
token "darwin01" — the documented special-case literal hostname — is
resolved with login identity "hetzner", not "customer", refuting the
per-token reading of the claim. -/
theorem get_hosts_darwin01_in_list_counterexample :
    (get_hosts [] "darwin01,darwin02").map DeployHost.user =
      [some "hetzner", some "hetzner"] := by decide

/-- C8 (amended): the darwin identity override is keyed on the whole spec:
when the spec is exactly "darwin01" the single descriptor gets the
restricted identity "customer"; for any other spec containing "darwin",
every descriptor gets the alternate identity "hetzner". -/
theorem get_hosts_darwin_identity (inventory : List String) (spec : String) :
    (spec = "darwin01" →
      get_hosts inventory spec = [⟨"darwin01.nix-community.org", some "customer", none⟩]) ∧
    (pyContains "darwin" spec = true → spec ≠ "darwin01" →
      ∀ d ∈ get_hosts inventory spec, d.user = some "hetzner") := by
  constructor
  · intro h01
    subst h01
    unfold get_hosts
    rw [if_neg (by decide), if_pos (by decide), if_pos rfl]
  · intro hd h01 d hmem
    have hne : spec ≠ "" := by
      intro he
      subst he
      exact absurd hd (by decide)
    unfold get_hosts at hmem
    rw [if_neg hne, if_pos hd, if_neg h01] at hmem
    obtain ⟨t, _, rfl⟩ := List.mem_map.mp hmem
    rfl

/-- Witness for C8 (amended) at the specs "darwin01" and
"darwin01,darwin02". -/
theorem get_hosts_darwin_identity_witness :
    get_hosts [] "darwin01" = [⟨"darwin01.nix-community.org", some "customer", none⟩] ∧
    (pyContains "darwin" "darwin01,darwin02" = true ∧
      (⟨"darwin01.nix-community.org", some "hetzner", none⟩ : DeployHost) ∈
        get_hosts [] "darwin01,darwin02" ∧
      (⟨"darwin01.nix-community.org", some "hetzner", none⟩ : DeployHost).user = some "hetzner") :=
  ⟨(get_hosts_darwin_identity [] "darwin01").1 rfl,
   by decide,
   by decide,
   (get_hosts_darwin_identity [] "darwin01,darwin02").2 (by decide) (by decide) _ (by decide)⟩

/-! Claim C9: the darwin decision is made on the whole spec string. -/

/-- C9: for every spec containing "darwin" other than exactly "darwin01",
`get_hosts` resolves every comma-separated token — including tokens that
do not themselves contain "darwin" — to a descriptor with the alternate
login identity "hetzner". -/
theorem get_hosts_darwin_spec_wide (inventory : List String) (spec : String)
    (hd : pyContains "darwin" spec = true) (h01 : spec ≠ "darwin01") :
    get_hosts inventory spec =
      (pySplit spec ',').map
        (fun h => ⟨h ++ ".nix-community.org", some "hetzner", none⟩) := by
  have hne : spec ≠ "" := by
    intro he
    subst he
    exact absurd hd (by decide)
  unfold get_hosts
  rw [if_neg hne, if_pos hd, if_neg h01]

/-- Witness for C9 at the spec "build01,darwin02", whose first token has
no "darwin" in it. -/
theorem get_hosts_darwin_spec_wide_witness :
    pyContains "darwin" "build01,darwin02" = true ∧
    ("build01,darwin02" : String) ≠ "darwin01" ∧
    get_hosts [] "build01,darwin02" =
      (pySplit "build01,darwin02" ',').map
        (fun h => ⟨h ++ ".nix-community.org", some "hetzner", none⟩) :=
  ⟨by decide, by decide, get_hosts_darwin_spec_wide [] "build01,darwin02" (by decide) (by decide)⟩

/-! Claim C10: the full-inventory path never applies identity overrides. -/

/-- C10: on the full-inventory path (empty spec) every descriptor is the
declared name with the domain suffix appended and the default login
identity (no "hetzner"/"customer" override), even when the declared
name contains "darwin". -/
theorem get_hosts_inventory_default_identity (inventory : List String) (d : DeployHost)
    (hmem : d ∈ get_hosts inventory "") :
    d.user = none ∧ ∃ n ∈ inventory, d.host = n ++ ".nix-community.org" := by
  unfold get_hosts at hmem
  rw [if_pos rfl] at hmem
  obtain ⟨n, hn, rfl⟩ := List.mem_map.mp hmem
  exact ⟨rfl, n, hn, rfl⟩

/-- Witness for C10 with an inventory whose declared name contains
"darwin". -/
theorem get_hosts_inventory_default_identity_witness :
    (⟨"darwin01.nix-community.org", none, none⟩ : DeployHost) ∈ get_hosts ["darwin01"] "" ∧
    ((⟨"darwin01.nix-community.org", none, none⟩ : DeployHost).user = none ∧
      ∃ n ∈ ["darwin01"],
        (⟨"darwin01.nix-community.org", none, none⟩ : DeployHost).host = n ++ ".nix-community.org") :=
  ⟨by decide,
   get_hosts_inventory_default_identity ["darwin01"] _ (by decide)⟩

/-! Claim C1: platform dispatch of the per-host apply step. -/

/-- C1: the apply step selects its command by platform class: an address
containing "darwin" gets the non-escalated "darwin-rebuild" addressed as
loginUser@address, any other address gets the escalated
"sudo nixos-rebuild" addressed by the raw address; in both cases the
flake attribute is the address with the domain suffix
".nix-community.org" stripped (a pure string transform — stated for
addresses in which the suffix occurs only as the suffix). -/
theorem deploy_platform_dispatch (h : DeployHost) (path : String) :
    (pyContains "darwin" h.host = true →
      (deploy h path).command = "darwin-rebuild" ∧
      ∀ u, h.user = some u → (deploy h path).target = u ++ "@" ++ h.host) ∧
    (pyContains "darwin" h.host = false →
      (deploy h path).command = "sudo nixos-rebuild" ∧
      (deploy h path).target = h.host) ∧
    (∀ n : String, h.host = n ++ ".nix-community.org" →
      containsSeq ".nix-community.org".toList
        ((n ++ ".nix-community.org").toList.dropLast) = false →
      (deploy h path).hostname = n) := by
  refine ⟨fun hd => ?_, fun hd => ?_, fun n hn hclean => ?_⟩
  · constructor
    · simp [deploy, hd]
    · intro u hu
      simp [deploy, hd, hu, pyFormatUser]
  · constructor
    · simp [deploy, hd]
    · simp [deploy, hd]
  · show pyReplace h.host ".nix-community.org" "" = n
    rw [hn]
    exact pyReplace_strip n hclean

/-- Witness for C1 on the darwin host "darwin02.nix-community.org" (user
"hetzner") and the Linux host "build01.nix-community.org", including the
spec's worked example that stripping the suffix from
"build01.nix-community.org" yields "build01". -/
theorem deploy_platform_dispatch_witness :
    (deploy ⟨"darwin02.nix-community.org", some "hetzner", none⟩ "/nix/store/p1").command
        = "darwin-rebuild" ∧
    (deploy ⟨"darwin02.nix-community.org", some "hetzner", none⟩ "/nix/store/p1").target
        = "hetzner" ++ "@" ++ "darwin02.nix-community.org" ∧
    (deploy ⟨"build01.nix-community.org", none, none⟩ "/nix/store/p1").command
        = "sudo nixos-rebuild" ∧
    (deploy ⟨"build01.nix-community.org", none, none⟩ "/nix/store/p1").target
        = "build01.nix-community.org" ∧
    (deploy ⟨"build01.nix-community.org", none, none⟩ "/nix/store/p1").hostname
        = "build01" :=
  ⟨((deploy_platform_dispatch ⟨"darwin02.nix-community.org", some "hetzner", none⟩
      "/nix/store/p1").1 (by decide)).1,
   ((deploy_platform_dispatch ⟨"darwin02.nix-community.org", some "hetzner", none⟩
      "/nix/store/p1").1 (by decide)).2 "hetzner" rfl,
   ((deploy_platform_dispatch ⟨"build01.nix-community.org", none, none⟩
      "/nix/store/p1").2.1 (by decide)).1,
   ((deploy_platform_dispatch ⟨"build01.nix-community.org", none, none⟩
      "/nix/store/p1").2.1 (by decide)).2,
   (deploy_platform_dispatch ⟨"build01.nix-community.org", none, none⟩
      "/nix/store/p1").2.2 "build01" (by decide) (by decide)⟩

/-! Claim C2: one result per host, with per-host failure isolation. -/

/-- C2: running the per-host unit over a target set of N hosts yields
exactly N results, one per host in order; each result's outcome is the
unit's outcome on that result's own host (so a failure on one host
neither suppresses nor alters any other host's result), and the number
of failures equals the number of hosts on which the unit fails. -/
theorem run_function_isolates (hosts : List DeployHost) (unit : DeployHost → Outcome) :
    (run_function hosts unit).length = hosts.length ∧
    (run_function hosts unit).map HostResult.host = hosts ∧
    (∀ r ∈ run_function hosts unit, r.outcome = unit r.host) ∧
    (run_function hosts unit).countP (fun r => Outcome.isFail r.outcome) =
      hosts.countP (fun h => Outcome.isFail (unit h)) := by
  refine ⟨by simp [run_function], ?_, ?_, ?_⟩
  · simp [run_function, List.map_map, Function.comp_def]
  · intro r hmem
    obtain ⟨h, _, rfl⟩ := List.mem_map.mp hmem
    rfl
  · simp [run_function, List.countP_map, Function.comp_def]

/-- Witness for C2: two hosts, the unit failing on exactly the first. -/
theorem run_function_isolates_witness :
    ((⟨⟨"build01.nix-community.org", none, none⟩, Outcome.failure "apply failed"⟩ : HostResult) ∈
      run_function
        [⟨"build01.nix-community.org", none, none⟩, ⟨"build02.nix-community.org", none, none⟩]
        (fun h => if h.host = "build01.nix-community.org"
          then Outcome.failure "apply failed" else Outcome.success)) ∧
    (⟨⟨"build01.nix-community.org", none, none⟩, Outcome.failure "apply failed"⟩ : HostResult).outcome
      = (fun (h : DeployHost) => if h.host = "build01.nix-community.org"
          then Outcome.failure "apply failed" else Outcome.success)
        (⟨⟨"build01.nix-community.org", none, none⟩, Outcome.failure "apply failed"⟩ : HostResult).host :=
  ⟨by decide,
   (run_function_isolates
      [⟨"build01.nix-community.org", none, none⟩, ⟨"build02.nix-community.org", none, none⟩]
      (fun h => if h.host = "build01.nix-community.org"
        then Outcome.failure "apply failed" else Outcome.success)).2.2.1 _ (by decide)⟩

/-! The readiness polling loop `wait_for_port` and the `reboot` task.

The network is modelled by a probe trace `probe : Nat → Bool`: `probe k`
tells whether the k-th `socket.create_connection` attempt succeeds.  Any
`OSError` — connection refused, timeout, DNS resolution failure
(`socket.gaierror` is an `OSError` subclass) — is a failed attempt
(`false`); the code's `except OSError` does not distinguish causes.
Observable behaviour is a trace of events. -/

/-- Observable events of the polling and reboot code: a connection
attempt and its result, a sleep (in milliseconds), a progress dot
written to stdout, a remote command, and a printed message. -/
inductive Ev where
  | connect (host : String) (port : Nat) (ok : Bool)
  | sleepMs (ms : Nat)
  | dot
  | run (host cmd : String)
  | msg (s : String)
deriving DecidableEq, Repr

/-- Embedding of `wait_for_port` from `tasks.py`.  The extra `fuel`
argument bounds how many probe attempts are unrolled: the result is
`(some k, trace)` when the loop returns after the probe attempt of
index `k`, and `(none, trace)` when the loop is still running after
`fuel` attempts (the Python loop is unbounded, so divergence is `none`
for every fuel).  The second `Nat` is the index of the next attempt,
`0` at entry.  Per attempt, a shutdown-wait treats a successful connect
as "still up": sleep 1 s, print a dot, continue; a failed connect ends
the loop.  A startup-wait ends the loop on a successful connect, and on
a failed connect sleeps 0.01 s, prints a dot and continues. -/
def wait_for_port (host : String) (port : Nat) (shutdown : Bool) (probe : Nat → Bool) :
    Nat → Nat → Option Nat × List Ev
  | 0, _ => (none, [])
  | fuel + 1, k =>
    if probe k then
      if shutdown then
        let r := wait_for_port host port shutdown probe fuel (k + 1)
        (r.1, Ev.connect host port true :: Ev.sleepMs 1000 :: Ev.dot :: r.2)
      else
        (some k, [Ev.connect host port true])
    else
      if shutdown then
        (some k, [Ev.connect host port false])
      else
        let r := wait_for_port host port shutdown probe fuel (k + 1)
        (r.1, Ev.connect host port false :: Ev.sleepMs 10 :: Ev.dot :: r.2)

/-- Embedding of Python's `h.port or 22` (`or` also replaces a zero
port, since `0` is falsy in Python). -/
def pyOrNat (p : Option Nat) (d : Nat) : Nat :=
  match p with
  | none => d
  | some n => if n = 0 then d else n

/-- The observable per-host reboot cycle, for the statement of the
sequencing theorem: issue the backgrounded reboot, announce and run the
shutdown wait, announce and run the startup wait. -/
def hostCycle (probeD probeU : DeployHost → Nat → Bool) (fuel : Nat) (h : DeployHost) :
    List Ev :=
  Ev.run h.host "sudo reboot &" ::
  Ev.msg ("Wait for " ++ h.host ++ " to shutdown") ::
  ((wait_for_port h.host (pyOrNat h.port 22) true (probeD h) fuel 0).2 ++
    (Ev.msg "" ::
     Ev.msg ("Wait for " ++ h.host ++ " to start") ::
     ((wait_for_port h.host (pyOrNat h.port 22) false (probeU h) fuel 0).2 ++ [Ev.msg ""])))

/-- Embedding of the `reboot` task from `tasks.py`: a sequential `for`
loop over the hosts; per host it runs `sudo reboot &`, waits for the
port to close (`shutdown=True`), then waits for it to open again.
`probeD`/`probeU` are the per-host probe traces of the two waits;
the result is `none` when some wait is still polling after `fuel`
attempts (the Python loop would still be blocked inside that host's
wait). -/
def reboot (probeD probeU : DeployHost → Nat → Bool) (fuel : Nat) :
    List DeployHost → Option (List Ev)
  | [] => some []
  | h :: rest =>
    let port := pyOrNat h.port 22
    let down := wait_for_port h.host port true (probeD h) fuel 0
    let up := wait_for_port h.host port false (probeU h) fuel 0
    match down.1, up.1, reboot probeD probeU fuel rest with
    | some _, some _, some tail =>
      some (Ev.run h.host "sudo reboot &" ::
        Ev.msg ("Wait for " ++ h.host ++ " to shutdown") ::
        (down.2 ++
          (Ev.msg "" ::
           Ev.msg ("Wait for " ++ h.host ++ " to start") ::
           (up.2 ++ (Ev.msg "" :: tail)))))
    | _, _, _ => none

/-! Helper lemmas about the polling loop. -/

/-- A shutdown-wait whose probes succeed on attempts `i, …, k-1` and
fail on attempt `k` returns after attempt `k`, having emitted one
sleep-and-dot block per successful probe. -/
lemma wait_down_run (host : String) (port : Nat) (probe : Nat → Bool) :
    ∀ (fuel i k : Nat), i ≤ k → k - i < fuel →
      (∀ j, i ≤ j → j < k → probe j = true) → probe k = false →
      wait_for_port host port true probe fuel i =
        (some k,
          (List.replicate (k - i) [Ev.connect host port true, Ev.sleepMs 1000, Ev.dot]).flatten
            ++ [Ev.connect host port false]) := by
  intro fuel
  induction fuel with
  | zero =>
    intro i k _ hlt _ _
    omega
  | succ f ih =>
    intro i k hik hlt hbefore hk
    by_cases heq : i = k
    · subst heq
      show (if probe i then _ else _) = _
      rw [if_neg (by simp [hk])]
      simp
    · have hi : probe i = true := hbefore i (Nat.le_refl i) (by omega)
      show (if probe i then _ else _) = _
      rw [if_pos (by simp [hi])]
      have hrec := ih (i + 1) k (by omega) (by omega)
        (fun j hj1 hj2 => hbefore j (by omega) hj2) hk
      simp only [hrec]
      have hki : k - i = (k - (i + 1)) + 1 := by omega
      rw [hki, List.replicate_succ, List.flatten_cons]
      simp

/-- A shutdown-wait all of whose probes succeed never returns. -/
lemma wait_down_forever (host : String) (port : Nat) (probe : Nat → Bool)
    (hall : ∀ j, probe j = true) :
    ∀ (fuel i : Nat), (wait_for_port host port true probe fuel i).1 = none := by
  intro fuel
  induction fuel with
  | zero => intro i; rfl
  | succ f ih =>
    intro i
    have h := ih (i + 1)
    simp [wait_for_port, hall i, h]

/-- A startup-wait whose probes fail on attempts `i, …, k-1` and succeed
on attempt `k` returns after attempt `k`, having emitted one
sleep-and-dot block per failed probe. -/
lemma wait_up_run (host : String) (port : Nat) (probe : Nat → Bool) :
    ∀ (fuel i k : Nat), i ≤ k → k - i < fuel →
      (∀ j, i ≤ j → j < k → probe j = false) → probe k = true →
      wait_for_port host port false probe fuel i =
        (some k,
          (List.replicate (k - i) [Ev.connect host port false, Ev.sleepMs 10, Ev.dot]).flatten
            ++ [Ev.connect host port true]) := by
  intro fuel
  induction fuel with
  | zero =>
    intro i k _ hlt _ _
    omega
  | succ f ih =>
    intro i k hik hlt hbefore hk
    by_cases heq : i = k
    · subst heq
      show (if probe i then _ else _) = _
      rw [if_pos (by simp [hk])]
      simp
    · have hi : probe i = false := hbefore i (Nat.le_refl i) (by omega)
      show (if probe i then _ else _) = _
      rw [if_neg (by simp [hi])]
      have hrec := ih (i + 1) k (by omega) (by omega)
        (fun j hj1 hj2 => hbefore j (by omega) hj2) hk
      simp only [hrec]
      have hki : k - i = (k - (i + 1)) + 1 := by omega
      rw [hki, List.replicate_succ, List.flatten_cons]
      simp

/-- A startup-wait all of whose probes fail never returns. -/
lemma wait_up_forever (host : String) (port : Nat) (probe : Nat → Bool)
    (hall : ∀ j, probe j = false) :
    ∀ (fuel i : Nat), (wait_for_port host port false probe fuel i).1 = none := by
  intro fuel
  induction fuel with
  | zero => intro i; rfl
  | succ f ih =>
    intro i
    have h := ih (i + 1)
    simp [wait_for_port, hall i, h]

/-! Claim C3: the shutdown wait returns exactly on the first failed probe. -/

/-- C3: `wait_for_port` with `shutdown=True` returns exactly when the
first probe attempt fails, and not before: with successes on attempts
`0..k-1` and a failure on attempt `k` it returns after attempt `k`
(polling through all earlier attempts), and while every probe succeeds
it keeps polling forever.  Probe outcomes are booleans: every `OSError`
cause (refusal, timeout, DNS failure) is the same `false`. -/
theorem wait_for_down_first_failure (host : String) (port : Nat) (probe : Nat → Bool) :
    (∀ k fuel, (∀ j, j < k → probe j = true) → probe k = false → k < fuel →
      wait_for_port host port true probe fuel 0 =
        (some k,
          (List.replicate k [Ev.connect host port true, Ev.sleepMs 1000, Ev.dot]).flatten
            ++ [Ev.connect host port false])) ∧
    (∀ fuel, (∀ j, probe j = true) → (wait_for_port host port true probe fuel 0).1 = none) := by
  constructor
  · intro k fuel hbefore hk hfuel
    have h := wait_down_run host port probe fuel 0 k (Nat.zero_le k) (by omega)
      (fun j _ hj => hbefore j hj) hk
    simpa using h
  · intro fuel hall
    exact wait_down_forever host port probe hall fuel 0

/-- Witness for C3: probes succeed on attempts 0 and 1 and fail on
attempt 2; the wait returns after attempt 2. -/
theorem wait_for_down_first_failure_witness :
    ((fun k => decide (k < 2)) 2 = false ∧ (2 : Nat) < 4) ∧
    wait_for_port "build01.nix-community.org" 22 true (fun k => decide (k < 2)) 4 0 =
      (some 2,
        (List.replicate 2
            [Ev.connect "build01.nix-community.org" 22 true, Ev.sleepMs 1000, Ev.dot]).flatten
          ++ [Ev.connect "build01.nix-community.org" 22 false]) :=
  ⟨⟨by decide, by decide⟩,
   (wait_for_down_first_failure "build01.nix-community.org" 22 (fun k => decide (k < 2))).1
     2 4 (fun j hj => by simpa using hj) (by decide) (by decide)⟩

/-! Claim C4: the startup wait returns exactly on the first successful
probe and has no upper bound on waiting. -/

/-- C4: `wait_for_port` with `shutdown=False` returns exactly when the
first probe attempt connects: with failures on attempts `0..k-1` and a
success on attempt `k` it returns after attempt `k`, sleeping briefly
and emitting a dot after every failed attempt; and when no probe ever
succeeds it is still polling after every number of attempts — the loop
never terminates. -/
theorem wait_for_up_first_success (host : String) (port : Nat) (probe : Nat → Bool) :
    (∀ k fuel, (∀ j, j < k → probe j = false) → probe k = true → k < fuel →
      wait_for_port host port false probe fuel 0 =
        (some k,
          (List.replicate k [Ev.connect host port false, Ev.sleepMs 10, Ev.dot]).flatten
            ++ [Ev.connect host port true])) ∧
    ((∀ j, probe j = false) →
      ∀ fuel, (wait_for_port host port false probe fuel 0).1 = none) := by
  constructor
  · intro k fuel hbefore hk hfuel
    have h := wait_up_run host port probe fuel 0 k (Nat.zero_le k) (by omega)
      (fun j _ hj => hbefore j hj) hk
    simpa using h
  · intro hall fuel
    exact wait_up_forever host port probe hall fuel 0

/-- Witness for C4: probes fail on attempts 0 and 1 and succeed on
attempt 2; the wait returns after attempt 2. -/
theorem wait_for_up_first_success_witness :
    ((fun k => decide (2 ≤ k)) 2 = true ∧ (2 : Nat) < 4) ∧
    wait_for_port "build01.nix-community.org" 22 false (fun k => decide (2 ≤ k)) 4 0 =
      (some 2,
        (List.replicate 2
            [Ev.connect "build01.nix-community.org" 22 false, Ev.sleepMs 10, Ev.dot]).flatten
          ++ [Ev.connect "build01.nix-community.org" 22 true]) :=
  ⟨⟨by decide, by decide⟩,
   (wait_for_up_first_success "build01.nix-community.org" 22 (fun k => decide (2 ≤ k))).1
     2 4 (fun j hj => by simpa using hj) (by decide) (by decide)⟩

/-! Claim C6 (corrected): during the shutdown wait the progress dot is
emitted on each successful probe, not on the failed one. -/

/-- C6 counterexample: with a probe that fails on the very first attempt
the shutdown wait returns immediately after that failed attempt, having
emitted no dot at all — refuting the claim that each failed connection
attempt emits a liveness-lost indicator and lets the loop continue. -/
theorem wait_for_down_failed_probe_counterexample :
    wait_for_port "build01.nix-community.org" 22 true (fun _ => false) 5 0 =
      (some 0, [Ev.connect "build01.nix-community.org" 22 false]) ∧
    (wait_for_port "build01.nix-community.org" 22 true (fun _ => false) 5 0).2.count Ev.dot
      = 0 := by
  constructor <;> decide

/-- Dot count of the shutdown-wait trace: one dot per leading block,
none from the final failed attempt. -/
lemma count_dot_down_trace (host : String) (port : Nat) :
    ∀ n : Nat,
      (((List.replicate n [Ev.connect host port true, Ev.sleepMs 1000, Ev.dot]).flatten)
          ++ [Ev.connect host port false]).count Ev.dot = n := by
  intro n
  induction n with
  | zero => simp [List.count_cons]
  | succ m ih =>
    rw [List.replicate_succ, List.flatten_cons, List.append_assoc]
    rw [List.count_append]
    rw [ih]
    simp [List.count_cons]
    omega

/-- C6 (amended): during the shutdown wait, each successful connection
attempt causes a 1-second sleep and one progress-dot emission and the
loop continues with another probe; the failed attempt emits no
indicator and ends the loop at once: with successes on attempts
`0..k-1` and a failure on attempt `k`, exactly `k` dots are emitted and
the loop returns after attempt `k`. -/
theorem wait_for_down_indicator (host : String) (port : Nat) (probe : Nat → Bool)
    (k fuel : Nat) (hbefore : ∀ j, j < k → probe j = true) (hk : probe k = false)
    (hfuel : k < fuel) :
    (wait_for_port host port true probe fuel 0).2.count Ev.dot = k ∧
    (wait_for_port host port true probe fuel 0).1 = some k := by
  have h := wait_down_run host port probe fuel 0 k (Nat.zero_le k) (by omega)
    (fun j _ hj => hbefore j hj) hk
  rw [h]
  refine ⟨?_, rfl⟩
  simpa using count_dot_down_trace host port k

/-- Witness for C6 (amended): probes succeed on attempts 0, 1, 2 and fail
on attempt 3; exactly three dots are emitted. -/
theorem wait_for_down_indicator_witness :
    ((fun k => decide (k < 3)) 3 = false ∧ (3 : Nat) < 5) ∧
    (wait_for_port "build02.nix-community.org" 22 true (fun k => decide (k < 3)) 5 0).2.count
        Ev.dot = 3 ∧
    (wait_for_port "build02.nix-community.org" 22 true (fun k => decide (k < 3)) 5 0).1
        = some 3 :=
  ⟨⟨by decide, by decide⟩,
   wait_for_down_indicator "build02.nix-community.org" 22 (fun k => decide (k < 3)) 3 5
     (fun j hj => by simpa using hj) (by decide) (by decide)⟩

/-! Claim C5: reboot processes hosts strictly sequentially. -/

/-- C5: the reboot task is a sequential per-host loop: whenever every
host's two waits terminate, the whole observable trace is the
concatenation, in target-list order, of per-host cycles, each being
issue-backgrounded-reboot, then the complete shutdown wait, then the
complete startup wait — so no part of a later host's cycle occurs
before the whole of an earlier host's cycle. -/
theorem reboot_sequential (probeD probeU : DeployHost → Nat → Bool) (fuel : Nat)
    (hosts : List DeployHost)
    (hterm : ∀ h ∈ hosts,
      (wait_for_port h.host (pyOrNat h.port 22) true (probeD h) fuel 0).1.isSome = true ∧
      (wait_for_port h.host (pyOrNat h.port 22) false (probeU h) fuel 0).1.isSome = true) :
    reboot probeD probeU fuel hosts =
      some ((hosts.map (hostCycle probeD probeU fuel)).flatten) := by
  induction hosts with
  | nil => rfl
  | cons h rest ih =>
    have hh := hterm h (List.mem_cons_self h rest)
    have hrest := fun x hx => hterm x (List.mem_cons_of_mem h hx)
    obtain ⟨kd, hkd⟩ := Option.isSome_iff_exists.mp hh.1
    obtain ⟨ku, hku⟩ := Option.isSome_iff_exists.mp hh.2
    simp only [reboot]
    rw [hkd, hku, ih hrest]
    simp [hostCycle, List.append_assoc]

/-- Witness for C5: two hosts; the shutdown probe fails at once and the
startup probe succeeds at once, so each wait returns after its first
attempt. -/
theorem reboot_sequential_witness :
    (∀ h ∈ ([⟨"build01.nix-community.org", none, none⟩,
             ⟨"build02.nix-community.org", none, none⟩] : List DeployHost),
      (wait_for_port h.host (pyOrNat h.port 22) true (fun _ => false) 1 0).1.isSome = true ∧
      (wait_for_port h.host (pyOrNat h.port 22) false (fun _ => true) 1 0).1.isSome = true) ∧
    reboot (fun _ _ => false) (fun _ _ => true) 1
        [⟨"build01.nix-community.org", none, none⟩,
         ⟨"build02.nix-community.org", none, none⟩] =
      some ((([⟨"build01.nix-community.org", none, none⟩,
               ⟨"build02.nix-community.org", none, none⟩] : List DeployHost).map
          (hostCycle (fun _ _ => false) (fun _ _ => true) 1)).flatten) := by
  have hyp : ∀ h ∈ ([⟨"build01.nix-community.org", none, none⟩,
             ⟨"build02.nix-community.org", none, none⟩] : List DeployHost),
      (wait_for_port h.host (pyOrNat h.port 22) true (fun _ => false) 1 0).1.isSome = true ∧
      (wait_for_port h.host (pyOrNat h.port 22) false (fun _ => true) 1 0).1.isSome = true := by
    intro h hh
    rcases List.mem_cons.mp hh with rfl | hh
    · exact ⟨by decide, by decide⟩
    rcases List.mem_cons.mp hh with rfl | hh
    · exact ⟨by decide, by decide⟩
    · simp at hh
  exact ⟨hyp, reboot_sequential (fun _ _ => false) (fun _ _ => true) 1 _ hyp⟩
